import Mathlib

/-!
Shallow embedding of the streaming chat client of this repository:
`src/services/api.ts` (the `sendMessage` streaming request client, in its
current form: system preamble, `Accept: text/event-stream`, provider-error
parsing, 403 handling) and `src/components/ChatInterface.tsx` (the
typewriter reveal scheduler).  TypeScript strings are modelled as `List
Char`; `JSON.parse` is modelled by an executable JSON parser producing the
`Json` value type below.
-/

set_option maxRecDepth 8000

/-- TypeScript strings are modelled as lists of characters. -/
abbrev Str := List Char

/-- JSON values as produced by `JSON.parse`.  Numbers keep their raw token
text (no claim inspects numeric values). -/
inductive Json where
  | null : Json
  | bool : Bool → Json
  | num : Str → Json
  | str : Str → Json
  | arr : List Json → Json
  | obj : List (Str × Json) → Json

/-- JSON whitespace accepted between tokens. -/
def jsonWsChar (c : Char) : Bool :=
  c == ' ' || c == '\t' || c == '\n' || c == '\r'

/-- Value of a hexadecimal digit. -/
def hexDigitVal (c : Char) : Option Nat :=
  if 48 ≤ c.toNat ∧ c.toNat ≤ 57 then some (c.toNat - 48)
  else if 97 ≤ c.toNat ∧ c.toNat ≤ 102 then some (c.toNat - 87)
  else if 65 ≤ c.toNat ∧ c.toNat ≤ 70 then some (c.toNat - 55)
  else none

/-- Body of a JSON string after the opening quote: returns the decoded
characters and the input remaining after the closing quote. -/
def parseStringBody : Str → Option (Str × Str)
  | [] => none
  | '"' :: rest => some ([], rest)
  | '\\' :: '"' :: rest => (parseStringBody rest).map fun p => ('"' :: p.1, p.2)
  | '\\' :: '\\' :: rest => (parseStringBody rest).map fun p => ('\\' :: p.1, p.2)
  | '\\' :: '/' :: rest => (parseStringBody rest).map fun p => ('/' :: p.1, p.2)
  | '\\' :: 'b' :: rest => (parseStringBody rest).map fun p => (Char.ofNat 8 :: p.1, p.2)
  | '\\' :: 'f' :: rest => (parseStringBody rest).map fun p => (Char.ofNat 12 :: p.1, p.2)
  | '\\' :: 'n' :: rest => (parseStringBody rest).map fun p => ('\n' :: p.1, p.2)
  | '\\' :: 'r' :: rest => (parseStringBody rest).map fun p => ('\r' :: p.1, p.2)
  | '\\' :: 't' :: rest => (parseStringBody rest).map fun p => ('\t' :: p.1, p.2)
  | '\\' :: 'u' :: h1 :: h2 :: h3 :: h4 :: rest =>
    match hexDigitVal h1, hexDigitVal h2, hexDigitVal h3, hexDigitVal h4 with
    | some a, some b, some c, some d =>
      (parseStringBody rest).map fun p => (Char.ofNat (((a * 16 + b) * 16 + c) * 16 + d) :: p.1, p.2)
    | _, _, _, _ => none
  | '\\' :: _ => none
  | c :: rest =>
    if c.toNat < 32 then none
    else (parseStringBody rest).map fun p => (c :: p.1, p.2)

/-- Leading run of decimal digits, and the rest. -/
def spanDigits (s : Str) : Str × Str :=
  (s.takeWhile Char.isDigit, s.dropWhile Char.isDigit)

/-- Integer part of a JSON number. -/
def parseIntPart : Str → Option (Str × Str)
  | '0' :: rest => some (['0'], rest)
  | c :: rest =>
    if c.isDigit then
      let (ds, r) := spanDigits rest
      some (c :: ds, r)
    else none
  | [] => none

/-- Optional fraction part of a JSON number. -/
def parseFracPart : Str → Option (Str × Str)
  | '.' :: rest =>
    let (ds, r) := spanDigits rest
    if ds.isEmpty then none else some ('.' :: ds, r)
  | s => some ([], s)

/-- Optional exponent part of a JSON number. -/
def parseExpPart : Str → Option (Str × Str)
  | c :: rest =>
    if c == 'e' || c == 'E' then
      match rest with
      | sg :: rest2 =>
        if sg == '+' || sg == '-' then
          let (ds, r) := spanDigits rest2
          if ds.isEmpty then none else some (c :: sg :: ds, r)
        else
          let (ds, r) := spanDigits rest
          if ds.isEmpty then none else some (c :: ds, r)
      | [] => none
    else some ([], c :: rest)
  | [] => some ([], [])

/-- A JSON number token (raw text kept). -/
def parseNumToken (s : Str) : Option (Str × Str) :=
  let (sgn, s1) : Str × Str :=
    match s with
    | '-' :: rest => (['-'], rest)
    | _ => ([], s)
  match parseIntPart s1 with
  | none => none
  | some (ip, s2) =>
    match parseFracPart s2 with
    | none => none
    | some (fp, s3) =>
      match parseExpPart s3 with
      | none => none
      | some (ep, s4) => some (sgn ++ ip ++ fp ++ ep, s4)

mutual

/-- Fueled JSON value parser (model of `JSON.parse`). -/
def parseVal : Nat → Str → Option (Json × Str)
  | 0, _ => none
  | fuel + 1, s =>
    match s.dropWhile jsonWsChar with
    | '\x7b' :: rest =>
      match rest.dropWhile jsonWsChar with
      | '\x7d' :: r => some (Json.obj [], r)
      | _ => parseMembersLoop fuel rest []
    | '[' :: rest =>
      match rest.dropWhile jsonWsChar with
      | ']' :: r => some (Json.arr [], r)
      | _ => parseElemsLoop fuel rest []
    | '"' :: rest => (parseStringBody rest).map fun p => (Json.str p.1, p.2)
    | 't' :: 'r' :: 'u' :: 'e' :: rest => some (Json.bool true, rest)
    | 'f' :: 'a' :: 'l' :: 's' :: 'e' :: rest => some (Json.bool false, rest)
    | 'n' :: 'u' :: 'l' :: 'l' :: rest => some (Json.null, rest)
    | s2 => (parseNumToken s2).map fun p => (Json.num p.1, p.2)

/-- Members of a JSON object after the opening brace. -/
def parseMembersLoop : Nat → Str → List (Str × Json) → Option (Json × Str)
  | 0, _, _ => none
  | fuel + 1, s, acc =>
    match s.dropWhile jsonWsChar with
    | '"' :: rest =>
      match parseStringBody rest with
      | none => none
      | some (key, r1) =>
        match r1.dropWhile jsonWsChar with
        | ':' :: r2 =>
          match parseVal fuel r2 with
          | none => none
          | some (v, r3) =>
            match r3.dropWhile jsonWsChar with
            | ',' :: r4 => parseMembersLoop fuel r4 (acc ++ [(key, v)])
            | '\x7d' :: r4 => some (Json.obj (acc ++ [(key, v)]), r4)
            | _ => none
        | _ => none
    | _ => none

/-- Elements of a JSON array after the opening bracket. -/
def parseElemsLoop : Nat → Str → List Json → Option (Json × Str)
  | 0, _, _ => none
  | fuel + 1, s, acc =>
    match parseVal fuel s with
    | none => none
    | some (v, r1) =>
      match r1.dropWhile jsonWsChar with
      | ',' :: r2 => parseElemsLoop fuel r2 (acc ++ [v])
      | ']' :: r2 => some (Json.arr (acc ++ [v]), r2)
      | _ => none

end

/-- Model of `JSON.parse`: parse a complete JSON document (trailing
whitespace allowed, trailing garbage rejected); `none` models a thrown
`SyntaxError`. -/
def parseJson (s : Str) : Option Json :=
  match parseVal (2 * s.length + 4) s with
  | some (v, rest) => if (rest.dropWhile jsonWsChar).isEmpty then some v else none
  | none => none

/-- JavaScript truthiness of a `JSON.parse` value.  A number is falsy iff it
is zero, i.e. every mantissa digit of its token is `0`. -/
def numIsZero (raw : Str) : Bool :=
  (raw.takeWhile (fun c => !(c == 'e' || c == 'E'))).all fun c => !c.isDigit || c == '0'

/-- JavaScript truthiness for JSON values. -/
def truthy : Json → Bool
  | .null => false
  | .bool b => b
  | .num raw => !numIsZero raw
  | .str s => !s.isEmpty
  | .arr _ => true
  | .obj _ => true

/-- JavaScript property access on a `JSON.parse` value; `none` models
`undefined`.  With duplicate keys `JSON.parse` keeps the last binding. -/
def getProp (j : Json) (key : Str) : Option Json :=
  match j with
  | .obj fields => ((fields.filter fun kv => kv.1 == key).getLast?).map fun kv => kv.2
  | _ => none

/-- Property access lifted over `undefined` (optional-chaining style). -/
def getPropOpt (j : Option Json) (key : Str) : Option Json :=
  match j with
  | some v => getProp v key
  | none => none

/-- Truthiness where `undefined` is falsy. -/
def truthyOpt : Option Json → Bool
  | some v => truthy v
  | none => false

/-- `Array.isArray` on a possibly-`undefined` value. -/
def isArrOpt : Option Json → Bool
  | some (.arr _) => true
  | _ => false

/-- `v.length === 0` for an array value. -/
def arrIsEmptyOpt : Option Json → Bool
  | some (.arr xs) => xs.isEmpty
  | _ => false

/-- `v[0]` on an array value; `none` models `undefined`. -/
def arrHeadOpt : Option Json → Option Json
  | some (.arr (x :: _)) => some x
  | _ => none

/-- `v === null`. -/
def isNullJson : Json → Bool
  | .null => true
  | _ => false

/-- The fixed SSE record marker `data: `. -/
def dataMarker : Str := "data: ".toList

/-- The literal stream-termination payload. -/
def doneMarker : Str := "[DONE]".toList

/-- One iteration of the SSE line loop of `sendMessage` (api.ts, the
`for (const line of lines)` body): the list of arguments passed to
`onProgress` for this line, in order.  A caught `JSON.parse` error, the
`[DONE]` marker, a malformed payload shape, and an absent or `null`
`delta.content` all fall through to `[]` (skip, `continue`). -/
def processLine (line : Str) : List Json :=
  if dataMarker.isPrefixOf line then
    let data := line.drop 6
    if data = doneMarker then []
    else
      match parseJson data with
      | none => []
      | some parsed =>
        let choicesVal := getProp parsed ("choices".toList)
        if !truthy parsed || !truthyOpt choicesVal || !isArrOpt choicesVal
            || arrIsEmptyOpt choicesVal then []
        else
          let choice := arrHeadOpt choicesVal
          let deltaVal := getPropOpt choice ("delta".toList)
          if !truthyOpt choice || !truthyOpt deltaVal then []
          else
            match getPropOpt deltaVal ("content".toList) with
            | none => []
            | some c => if isNullJson c then [] else [c]
  else []

/-- The complete-lines loop: every line is processed, none terminates the
iteration. -/
def processLinesLoop : List Str → List Json
  | [] => []
  | l :: ls => processLine l ++ processLinesLoop ls

/-- `buffer.split('\n')` (single-character separator, no regex). -/
def splitNl : Str → List Str
  | [] => [[]]
  | c :: rest =>
    let ps := splitNl rest
    if c = '\n' then [] :: ps
    else (c :: ps.headD []) :: ps.tail

/-- The chunk loop of `sendMessage`: append the chunk to the rolling buffer,
split on newlines, keep the last (possibly incomplete) piece as the new
buffer (`buffer = lines.pop() || ''`), process the complete lines.  When
`done` arrives the remaining buffer is dropped without processing. -/
def processChunks : Str → List Str → List Json
  | _, [] => []
  | buffer, chunk :: rest =>
    let parts := splitNl (buffer ++ chunk)
    processLinesLoop parts.dropLast ++ processChunks (parts.getLastD []) rest

/-- All `onProgress` arguments produced by one successful streamed body,
delivered as the given network chunks. -/
def streamDeltas (chunks : List Str) : List Json := processChunks [] chunks


/-- The roles a conversation turn can carry. -/
inductive Role where
  | user
  | assistant
  | system
  deriving DecidableEq

/-- Serialized role name. -/
def Role.toStr : Role → Str
  | .user => "user".toList
  | .assistant => "assistant".toList
  | .system => "system".toList

/-- A conversation turn (`Message` in api.ts). -/
structure Message where
  role : Role
  content : Str

/-- `{ role, content }` serialization of one turn. -/
def messageJson (m : Message) : Json :=
  Json.obj [("role".toList, Json.str m.role.toStr), ("content".toList, Json.str m.content)]

/-- The fixed system preamble prepended to every request. -/
def systemPreamble : Json :=
  Json.obj [("role".toList, Json.str ("system".toList)),
    ("content".toList, Json.str ("你是一个有帮助的AI助手，请用简洁、专业的中文回答问题。".toList))]

/-- The HTTP request `sendMessage` issues (method, url, headers and the
object passed to `JSON.stringify` as the body). -/
structure SendRequest where
  method : Str
  url : Str
  headers : List (Str × Str)
  body : Json

/-- The request built by `sendMessage` (api.ts, the `fetchWithTimeout`
call): POST, bearer credential, referer/title headers, event-stream accept
header, body with the system preamble followed by the supplied turns and
`stream: true`. -/
def buildRequest (messages : List Message) (apiKey : Str) (origin : Str) : SendRequest :=
  { method := "POST".toList
    url := "https://openrouter.ai/api/v1/chat/completions".toList
    headers := [
      ("Content-Type".toList, "application/json".toList),
      ("Authorization".toList, "Bearer ".toList ++ apiKey),
      ("HTTP-Referer".toList, origin),
      ("X-Title".toList, "AI-ChatBot".toList),
      ("Accept".toList, "text/event-stream".toList)]
    body := Json.obj [
      ("model".toList, Json.str ("mistralai/mistral-7b-instruct".toList)),
      ("messages".toList, Json.arr (systemPreamble :: messages.map messageJson)),
      ("stream".toList, Json.bool true),
      ("temperature".toList, Json.num ("0.7".toList)),
      ("max_tokens".toList, Json.num ("2000".toList)),
      ("top_p".toList, Json.num ("1".toList)),
      ("frequency_penalty".toList, Json.num ("0".toList)),
      ("presence_penalty".toList, Json.num ("0".toList))] }

/-- Error message thrown for an empty (after trim) API key. -/
def invalidKeyMsg : Str := "请提供有效的 API Key".toList

/-- Error message thrown when an attempt is classified as timeout
(`AbortError`). -/
def timeoutMsg : Str := "请求超时，请检查网络连接".toList

/-- `ExhaustedRetries` message wrapping the last underlying error. -/
def exhaustedMsg (m : Str) : Str := "多次请求失败: ".toList ++ m

/-- Message of the unreachable fall-through throw after the retry loop. -/
def fallbackFailMsg : Str := "请求失败".toList

/-- Status-specific message for HTTP 429. -/
def msg429 : Str := "请求过于频繁，请稍后再试".toList

/-- Status-specific message for HTTP 401. -/
def msg401 : Str := "API Key 无效或已过期，请检查你的 OpenRouter API Key".toList

/-- Status-specific message for HTTP 403. -/
def msg403 : Str := "访问被拒绝，请检查 API Key 权限或尝试使用其他模型".toList

/-- Status-specific message for HTTP 503. -/
def msg503 : Str := "服务暂时不可用，请稍后再试".toList

/-- Generic message for any other non-success status. -/
def genericHttpMsg (status : Nat) (statusText bodyText : Str) : Str :=
  "API请求失败: ".toList ++ (Nat.repr status).toList ++ [' '] ++ statusText ++ ['\n'] ++ bodyText

/-- What the non-ok branch of `sendMessage` actually throws (api.ts, the
`if (!response.ok)` block).  The inner `try { ... } catch (e) { console.warn }`
block throws its provider-message errors *inside its own try*, so they are
caught by that very `catch` and only logged: the block has no effect on the
thrown error, and control always falls through to the status checks. -/
def httpErrorThrowMsg (status : Nat) (statusText bodyText : Str) : Str :=
  if status = 429 then msg429
  else if status = 401 then msg401
  else if status = 403 then msg403
  else if status = 503 then msg503
  else genericHttpMsg status statusText bodyText

/-- `JSON.parse` applied to a JSON *value* (the `raw` provider-metadata
field): strings are parsed, numbers and booleans coerce to their own token
text; other values stringify to text that does not parse (modelled as
failure). -/
def jsonParseValue : Json → Option Json
  | .str s => parseJson s
  | .num raw => parseJson raw
  | .bool b => parseJson (if b then "true".toList else "false".toList)
  | _ => none

/-- Template-literal interpolation `${v}` for the message values. -/
def jsTemplateStr : Json → Str
  | .str s => s
  | .num raw => raw
  | .bool b => if b then "true".toList else "false".toList
  | .null => "null".toList
  | .arr _ => []
  | .obj _ => "[object Object]".toList

/-- The top-level fallback extraction `errorData?.error?.message` with its
`OpenRouter API 错误: ` framing. -/
def topLevelErrorMsg (errorData : Json) : Option Str :=
  match getPropOpt (getProp errorData ("error".toList)) ("message".toList) with
  | some m => if truthy m then some ("OpenRouter API 错误: ".toList ++ jsTemplateStr m) else none
  | none => none

/-- The provider-supplied error message the inner block of the non-ok
branch extracts and throws — first `errorData?.error?.metadata?.raw`
(re-parsed), falling back to the top-level `errorData?.error?.message` —
before that throw is swallowed by the block's own `catch`. -/
def extractedErrorMsg (bodyText : Str) : Option Str :=
  match parseJson bodyText with
  | none => none
  | some errorData =>
    match getPropOpt (getPropOpt (getProp errorData ("error".toList)) ("metadata".toList))
        ("raw".toList) with
    | some rawVal =>
      if truthy rawVal then
        match jsonParseValue rawVal with
        | some parsedProvider =>
          match getPropOpt (getProp parsedProvider ("error".toList)) ("message".toList) with
          | some m =>
            if truthy m then some ("服务提供商错误: ".toList ++ jsTemplateStr m)
            else topLevelErrorMsg errorData
          | none => topLevelErrorMsg errorData
        | none => none
      else topLevelErrorMsg errorData
    | none => topLevelErrorMsg errorData

/-- Outcome of one `fetchWithTimeout` attempt, as seen by the retry loop:
the attempt succeeds (body consumed to the end), aborts with `AbortError`
(timeout), or throws any other error with the given message (network
failure or a non-ok HTTP status turned into a thrown error). -/
inductive AttemptOutcome where
  | success
  | abortTimeout
  | failMsg (msg : Str)

/-- How one `sendMessage` call ends. -/
inductive SendResult where
  | completed
  | threw (msg : Str)
  deriving DecidableEq

/-- Observable trace of one `sendMessage` call: how it ended, how many
fetch attempts were issued, and the backoff waits performed, in order. -/
structure SendTrace where
  result : SendResult
  fetchCalls : Nat
  waits : List Nat
  deriving DecidableEq

/-- `maxRetries` constant of `sendMessage`. -/
def maxRetries : Nat := 3

/-- Backoff delay before the retry that follows failed attempt
`retryCount`: `Math.min(1000 * Math.pow(2, retryCount), 8000)`. -/
def backoffWait (retryCount : Nat) : Nat := min (1000 * 2 ^ retryCount) 8000

/-- The retry loop of `sendMessage` (`while (retryCount < maxRetries)`),
driven by the outcome of each attempt (attempt number = current
`retryCount`).  The loop body count is bounded by `maxRetries`, which the
`fuel` argument makes structural. -/
def sendLoop (outcomes : Nat → AttemptOutcome) : Nat → Nat → Option Str → SendTrace
  | 0, _, lastError => ⟨.threw (lastError.getD fallbackFailMsg), 0, []⟩
  | fuel + 1, retryCount, lastError =>
    if retryCount < maxRetries then
      match outcomes retryCount with
      | .success => ⟨.completed, 1, []⟩
      | .abortTimeout => ⟨.threw timeoutMsg, 1, []⟩
      | .failMsg m =>
        if retryCount < maxRetries - 1 then
          let rest := sendLoop outcomes fuel (retryCount + 1) (some m)
          ⟨rest.result, rest.fetchCalls + 1, backoffWait retryCount :: rest.waits⟩
        else ⟨.threw (exhaustedMsg m), 1, []⟩
    else ⟨.threw (lastError.getD fallbackFailMsg), 0, []⟩

/-- One `sendMessage` call from the first attempt on. -/
def runSend (outcomes : Nat → AttemptOutcome) : SendTrace :=
  sendLoop outcomes maxRetries 0 none

/-- JavaScript `String.prototype.trim` whitespace (the characters relevant
to credentials). -/
def jsTrimWs (c : Char) : Bool :=
  c == ' ' || c == '\t' || c == '\n' || c == '\r' || c.toNat == 11 || c.toNat == 12
    || c.toNat == 0xa0 || c.toNat == 0xfeff || c.toNat == 0x3000

/-- `apiKey.trim()`. -/
def jsTrim (s : Str) : Str :=
  ((s.dropWhile jsTrimWs).reverse.dropWhile jsTrimWs).reverse

/-- `sendMessage` from entry: the API-key guard
(`if (!apiKey.trim()) throw`) runs before any network activity; otherwise
the retry loop runs. -/
def sendMessageModel (_messages : List Message) (apiKey : Str)
    (outcomes : Nat → AttemptOutcome) : SendTrace :=
  if jsTrim apiKey = [] then ⟨.threw invalidKeyMsg, 0, []⟩
  else runSend outcomes

/-- The punctuation class of the typewriter effect
(`/[.,!?，。！？、:：""''（）()]/` in ChatInterface.tsx; the quote
characters in the source are the ASCII `"` and `'`, each written twice). -/
def punctSet : List Char :=
  ['.', ',', '!', '?', '，', '。', '！', '？', '、', ':', '：', '"', '\'', '（', '）', '(', ')']

/-- Membership in the punctuation class. -/
def isPunctChar (c : Char) : Bool := punctSet.contains c

/-- A CJK ideograph (`/[一-龥]/`). -/
def isCJKChar (c : Char) : Bool := 0x4e00 ≤ c.toNat && c.toNat ≤ 0x9fa5

/-- A Latin letter (`/[a-zA-Z]/`). -/
def isLatinChar (c : Char) : Bool :=
  (97 ≤ c.toNat && c.toNat ≤ 122) || (65 ≤ c.toNat && c.toNat ≤ 90)

/-- `charsToAdd` of the typewriter effect for the unrevealed suffix `t`
(nonempty in context): punctuation alone; a CJK run whole when ≤ 2 else one
at a time; a Latin run whole when ≤ 4 else 3 at a time; a space before a
Latin letter alone; anything else one at a time. -/
def charsToAdd (t : Str) : Nat :=
  match t with
  | [] => 1
  | c0 :: rest =>
    if isPunctChar c0 then 1
    else if isCJKChar c0 then
      let runLen := (t.takeWhile isCJKChar).length
      if runLen ≤ 2 then runLen else 1
    else if isLatinChar c0 then
      let runLen := (t.takeWhile isLatinChar).length
      if runLen ≤ 4 then runLen else 3
    else if c0 == ' ' && (match rest with | c1 :: _ => isLatinChar c1 | [] => false) then 1
    else 1

/-- Per-turn reveal state: `currentResponse` (accumulated text) and
`displayedResponse` (revealed text). -/
structure RevealState where
  cur : Str
  disp : Str

/-- Initial state of an assistant turn. -/
def initialRevealState : RevealState := ⟨[], []⟩

/-- The chunk the next typewriter tick appends:
`textToType.slice(0, charsToAdd)` for
`textToType = currentResponse.slice(displayedResponse.length)`. -/
def revealChunk (st : RevealState) : Str :=
  let t := st.cur.drop st.disp.length
  t.take (charsToAdd t)

/-- One typewriter tick (`setDisplayedResponse(prev => prev + ...)`). -/
def revealStep (st : RevealState) : RevealState :=
  ⟨st.cur, st.disp ++ revealChunk st⟩

/-- The events driving one turn: a delta arriving via `handleProgress`
(`fullResponse += content; setCurrentResponse(fullResponse)`), or one
typewriter timeout firing. -/
inductive TurnOp where
  | feed (delta : Str)
  | tick

/-- One event step; a tick on an empty backlog emits nothing (the effect
only schedules a timeout when `textToType` is nonempty). -/
def stepOp (st : RevealState) : TurnOp → RevealState × Option Str
  | .feed d => (⟨st.cur ++ d, st.disp⟩, none)
  | .tick =>
    if (st.cur.drop st.disp.length).isEmpty then (st, none)
    else (revealStep st, some (revealChunk st))

/-- Run a sequence of turn events, collecting the emitted reveal chunks in
emission order. -/
def runOps : RevealState → List TurnOp → RevealState × List Str
  | st, [] => (st, [])
  | st, op :: ops =>
    let r := stepOp st op
    let rest := runOps r.1 ops
    (rest.1, r.2.toList ++ rest.2)

/-- Sentence-final punctuation (250ms pause class). -/
def sentenceEndSet : List Char := ['.', '。', '!', '！', '?', '？']

/-- Comma-class punctuation (120ms pause class). -/
def commaSet : List Char := [',', '，', '、']

/-- Colon-class punctuation (180ms pause class). -/
def colonSet : List Char := [':', '：']

/-- Quote-class punctuation (80ms pause class; ASCII `"` and `'` in the
source). -/
def quoteSet : List Char := ['"', '\'']

/-- `punctuationDelay`: pause added when the previously revealed text ends
with punctuation (each regex tests the last character of
`displayedResponse`). -/
def punctuationDelay (disp : Str) : Nat :=
  match disp.getLast? with
  | none => 0
  | some c =>
    if sentenceEndSet.contains c then 250
    else if commaSet.contains c then 120
    else if colonSet.contains c then 180
    else if quoteSet.contains c then 80
    else 0

/-- JavaScript regex `\s` class (the whitespace characters relevant
here). -/
def jsRegexSpace (c : Char) : Bool :=
  c == ' ' || c == '\t' || c == '\n' || c == '\r' || c.toNat == 11 || c.toNat == 12
    || c.toNat == 0xa0 || c.toNat == 0x2028 || c.toNat == 0x2029 || c.toNat == 0x3000
    || c.toNat == 0xfeff

/-- `/\n\s*\n$/.test(displayedResponse)`: the displayed text ends with a
newline preceded (through whitespace) by another newline. -/
def endsWithBlankLine (disp : Str) : Bool :=
  match disp.reverse with
  | '\n' :: rest => (rest.takeWhile jsRegexSpace).contains '\n'
  | _ => false

/-- `paragraphDelay`. -/
def paragraphDelay (disp : Str) : Nat := if endsWithBlankLine disp then 350 else 0

/-- `lengthFactor` of `calculateTypingDelay`. -/
def lengthFactor (totalLength : Nat) : ℚ :=
  if totalLength > 1000 then 85 / 100
  else if totalLength > 500 then 9 / 10
  else if totalLength > 100 then 95 / 100
  else 1

/-- `progressFactor` of `calculateTypingDelay`.  When `totalLength = 0` the
JS `progress` is `NaN` and every comparison is false, leaving the factor at
1. -/
def progressFactor (totalLength currentLength : Nat) : ℚ :=
  if totalLength = 0 then 1
  else
    let progress : ℚ := (currentLength : ℚ) / (totalLength : ℚ)
    if progress < 1 / 10 then 9 / 10
    else if progress < 1 / 5 then 95 / 100
    else if progress > 95 / 100 then 105 / 100
    else 1

/-- `calculateTypingDelay` with the sampled random factor passed in
(`Math.round(baseDelay * lengthFactor * progressFactor * randomFactor)`;
`Math.round` = `round` on rationals). -/
def calculateTypingDelay (totalLength currentLength : Nat) (randomFactor : ℚ) : ℤ :=
  round (20 * lengthFactor totalLength * progressFactor totalLength currentLength * randomFactor)

/-- The full delay before the next typewriter tick:
`delay + punctuationDelay + paragraphDelay`. -/
def revealDelay (st : RevealState) (randomFactor : ℚ) : ℤ :=
  calculateTypingDelay st.cur.length st.disp.length randomFactor
    + punctuationDelay st.disp + paragraphDelay st.disp

/-! ### Helper lemmas about the rolling buffer split -/

theorem splitNl_ne_nil (s : Str) : splitNl s ≠ [] := by
  cases s with
  | nil => simp [splitNl]
  | cons c rest =>
    simp only [splitNl]
    split <;> simp

theorem splitNl_no_nl (s : Str) (h : '\n' ∉ s) : splitNl s = [s] := by
  induction s with
  | nil => rfl
  | cons c rest ih =>
    simp only [List.mem_cons, not_or] at h
    rw [splitNl, ih h.2, if_neg fun hh => h.1 hh.symm]
    rfl

theorem splitNl_append (a b : Str) :
    splitNl (a ++ b) = (splitNl a).dropLast ++ splitNl ((splitNl a).getLastD [] ++ b) := by
  induction a with
  | nil => simp [splitNl]
  | cons c a' ih =>
    by_cases hc : c = '\n'
    · subst hc
      rw [List.cons_append, splitNl, if_pos rfl, ih, splitNl, if_pos rfl]
      rcases h : splitNl a' with _ | ⟨p, ps⟩
      · exact absurd h (splitNl_ne_nil a')
      · simp [List.getLastD_cons]
    · rw [List.cons_append, splitNl, if_neg hc, ih]
      rw [show splitNl (c :: a') = (c :: (splitNl a').headD []) :: (splitNl a').tail by
        rw [splitNl, if_neg hc]]
      rcases h : splitNl a' with _ | ⟨p, ps⟩
      · exact absurd h (splitNl_ne_nil a')
      · cases ps with
        | nil =>
          simp only [List.headD_cons, List.tail_cons, List.dropLast_single,
            List.getLastD_cons, List.getLastD_nil, List.dropLast_nil, List.nil_append]
          rw [List.cons_append, splitNl, if_neg hc]
        | cons q qs =>
          simp [List.getLastD_cons]

theorem splitNl_getLast_no_nl (s : Str) : '\n' ∉ (splitNl s).getLastD [] := by
  induction s with
  | nil => simp [splitNl]
  | cons c rest ih =>
    rw [splitNl]
    by_cases hc : c = '\n'
    · rw [if_pos hc]
      rcases h : splitNl rest with _ | ⟨p, ps⟩
      · exact absurd h (splitNl_ne_nil rest)
      · rw [h] at ih
        simpa [List.getLastD_cons] using ih
    · rw [if_neg hc]
      rcases h : splitNl rest with _ | ⟨p, ps⟩
      · exact absurd h (splitNl_ne_nil rest)
      · rw [h] at ih
        cases ps with
        | nil =>
          simp only [List.headD_cons, List.tail_cons, List.getLastD_cons,
            List.getLastD_nil] at ih ⊢
          simp only [List.mem_cons, not_or]
          exact ⟨fun hh => hc hh.symm, ih⟩
        | cons q qs =>
          simpa [List.getLastD_cons] using ih

theorem processLinesLoop_append (xs ys : List Str) :
    processLinesLoop (xs ++ ys) = processLinesLoop xs ++ processLinesLoop ys := by
  induction xs with
  | nil => rfl
  | cons x xs ih => simp [processLinesLoop, ih]

theorem processChunks_eq (chunks : List Str) :
    ∀ buffer : Str, '\n' ∉ buffer →
      processChunks buffer chunks
        = processLinesLoop ((splitNl (buffer ++ chunks.flatten)).dropLast) := by
  induction chunks with
  | nil =>
    intro buffer hb
    rw [processChunks, List.flatten_nil, List.append_nil, splitNl_no_nl buffer hb]
    rfl
  | cons chunk rest ih =>
    intro buffer hb
    rw [processChunks, List.flatten_cons, ← List.append_assoc,
      splitNl_append (buffer ++ chunk) rest.flatten,
      List.dropLast_append_of_ne_nil _ (splitNl_ne_nil _),
      processLinesLoop_append,
      ih _ (splitNl_getLast_no_nl (buffer ++ chunk))]

theorem streamDeltas_eq (chunks : List Str) :
    streamDeltas chunks = processLinesLoop ((splitNl chunks.flatten).dropLast) := by
  rw [streamDeltas, processChunks_eq chunks [] (by simp), List.nil_append]

theorem streamDeltas_rechunk (chunks : List Str) :
    streamDeltas chunks = streamDeltas [chunks.flatten] := by
  rw [streamDeltas_eq, streamDeltas_eq]
  simp

theorem streamDeltas_drop_trailing (chunks : List Str) (s : Str) (hs : '\n' ∉ s) :
    streamDeltas (chunks ++ [s]) = streamDeltas chunks := by
  have hg : '\n' ∉ (splitNl chunks.flatten).getLastD [] ++ s := by
    intro hmem
    rcases List.mem_append.mp hmem with h | h
    · exact splitNl_getLast_no_nl chunks.flatten h
    · exact hs h
  rw [streamDeltas_eq, streamDeltas_eq]
  have hflat : (chunks ++ [s]).flatten = chunks.flatten ++ s := by simp
  rw [hflat, splitNl_append chunks.flatten s, splitNl_no_nl _ hg]
  simp

/-! ### Helper lemmas about the reveal scheduler -/

theorem revealStep_prefix (st : RevealState) (h : st.disp <+: st.cur) :
    (st.disp ++ revealChunk st) <+: st.cur := by
  obtain ⟨t, ht⟩ := h
  have hdrop : st.cur.drop st.disp.length = t := by
    rw [← ht, List.drop_left]
  refine ⟨t.drop (charsToAdd t), ?_⟩
  rw [revealChunk, hdrop, List.append_assoc, List.take_append_drop, ht]

theorem runOps_invariant (ops : List TurnOp) :
    ∀ st : RevealState, st.disp <+: st.cur →
      ((runOps st ops).1.disp <+: (runOps st ops).1.cur) ∧
      st.disp ++ ((runOps st ops).2.flatten) = (runOps st ops).1.disp := by
  induction ops with
  | nil => exact fun st h => ⟨h, by simp [runOps]⟩
  | cons op ops ih =>
    intro st h
    cases op with
    | feed d =>
      have hpre : st.disp <+: st.cur ++ d := by
        obtain ⟨t, ht⟩ := h
        exact ⟨t ++ d, by rw [← List.append_assoc, ht]⟩
      have := ih ⟨st.cur ++ d, st.disp⟩ hpre
      simpa [runOps, stepOp] using this
    | tick =>
      by_cases he : (st.cur.drop st.disp.length).isEmpty
      · have := ih st h
        simp only [runOps, stepOp, if_pos he]
        simpa using this
      · have hpre := revealStep_prefix st h
        have := ih ⟨st.cur, st.disp ++ revealChunk st⟩ hpre
        simp only [runOps, stepOp, if_neg he]
        refine ⟨by simpa [revealStep] using this.1, ?_⟩
        have h2 := this.2
        simp only [revealStep] at h2 ⊢
        simp only [Option.toList_some, List.flatten_cons, ← List.append_assoc]
        simpa using h2

/-! ### Helper lemmas about SSE line processing -/

theorem getProp_some_truthy {j v : Json} {k : Str} (h : getProp j k = some v) :
    truthy j = true := by
  cases j
  case obj => rfl
  all_goals exact Option.noConfusion h

theorem isNullJson_eq_false_iff (j : Json) : isNullJson j = false ↔ j ≠ Json.null := by
  cases j <;> simp [isNullJson]

theorem truthy_arr (xs : List Json) : truthy (Json.arr xs) = true := rfl

theorem truthyOpt_some (v : Json) : truthyOpt (some v) = truthy v := rfl

theorem getPropOpt_some (v : Json) (k : Str) : getPropOpt (some v) k = getProp v k := rfl

theorem arrHeadOpt_cons (x : Json) (xs : List Json) :
    arrHeadOpt (some (Json.arr (x :: xs))) = some x := rfl

theorem isArrOpt_arr (xs : List Json) : isArrOpt (some (Json.arr xs)) = true := rfl

theorem arrIsEmptyOpt_cons (x : Json) (xs : List Json) :
    arrIsEmptyOpt (some (Json.arr (x :: xs))) = false := rfl

/-- Conditions under which one SSE line produces a callback with value `v`:
the line is a `data: ` record whose remainder is not the termination marker
and parses as JSON with a nonempty `choices` array whose first element is a
truthy value with a truthy `delta` whose `content` field is present and not
`null`. -/
def EmitsDelta (line : Str) (v : Json) : Prop :=
  dataMarker.isPrefixOf line = true ∧
  line.drop 6 ≠ doneMarker ∧
  ∃ parsed choice rest delta,
    parseJson (line.drop 6) = some parsed ∧
    getProp parsed ("choices".toList) = some (Json.arr (choice :: rest)) ∧
    truthy choice = true ∧
    getProp choice ("delta".toList) = some delta ∧
    truthy delta = true ∧
    getProp delta ("content".toList) = some v ∧
    v ≠ Json.null

theorem processLine_singleton_iff (line : Str) (v : Json) :
    processLine line = [v] ↔ EmitsDelta line v := by
  constructor
  · intro h
    simp only [processLine] at h
    by_cases hpre : dataMarker.isPrefixOf line = true
    swap
    · rw [if_neg hpre] at h; exact absurd h (by simp)
    rw [if_pos hpre] at h
    by_cases hdone : line.drop 6 = doneMarker
    · rw [if_pos hdone] at h; exact absurd h (by simp)
    rw [if_neg hdone] at h
    rcases hp : parseJson (line.drop 6) with _ | parsed
    · rw [hp] at h; exact absurd h (by simp)
    rw [hp] at h
    dsimp only at h
    rcases hcv : getProp parsed ("choices".toList) with _ | cv
    · rw [hcv] at h
      simp [truthyOpt, isArrOpt, arrIsEmptyOpt] at h
    rw [hcv] at h
    have htp : truthy parsed = true := getProp_some_truthy hcv
    cases cv with
    | null => simp [truthyOpt_some, isArrOpt] at h
    | bool b => simp [truthyOpt_some, isArrOpt] at h
    | num raw => simp [truthyOpt_some, isArrOpt] at h
    | str s => simp [truthyOpt_some, isArrOpt] at h
    | obj fl => simp [truthyOpt_some, isArrOpt] at h
    | arr xs =>
      rcases xs with _ | ⟨choice, rest⟩
      · simp [truthyOpt_some, isArrOpt, arrIsEmptyOpt] at h
      simp only [htp, truthy_arr, truthyOpt_some, isArrOpt_arr, arrIsEmptyOpt_cons,
        arrHeadOpt_cons, getPropOpt_some] at h
      rw [if_neg (by simp)] at h
      rcases hd : getProp choice ("delta".toList) with _ | dv
      · rw [hd] at h
        simp [truthyOpt] at h
      rw [hd] at h
      simp only [truthyOpt_some, getPropOpt_some] at h
      cases htc : truthy choice with
      | false => rw [htc] at h; simp at h
      | true =>
      rw [htc] at h
      cases htd : truthy dv with
      | false => rw [htd] at h; simp at h
      | true =>
      rw [htd] at h
      rw [if_neg (by simp)] at h
      rcases hcnt : getProp dv ("content".toList) with _ | w
      · rw [hcnt] at h; exact absurd h (by simp)
      rw [hcnt] at h
      dsimp only at h
      cases hwn : isNullJson w with
      | true => rw [hwn] at h; simp at h
      | false =>
      rw [hwn, if_neg (by simp)] at h
      have hv : w = v := by simpa using h
      subst hv
      exact ⟨hpre, hdone, parsed, choice, rest, dv, hp, hcv, htc, hd, htd, hcnt,
        (isNullJson_eq_false_iff w).mp hwn⟩
  · rintro ⟨hpre, hdone, parsed, choice, rest, delta, hp, hcv, htc, hd, htd, hcnt, hvn⟩
    simp only [processLine, if_pos hpre, if_neg hdone, hp, hcv,
      getProp_some_truthy hcv, truthy_arr, truthyOpt_some, isArrOpt_arr,
      arrIsEmptyOpt_cons, arrHeadOpt_cons, getPropOpt_some, hd, htc, htd, hcnt]
    simp [(isNullJson_eq_false_iff v).mpr hvn]

theorem processLine_length_le (line : Str) : (processLine line).length ≤ 1 := by
  simp only [processLine]
  split
  · split
    · simp
    · split
      · simp
      · split
        · simp
        · split
          · simp
          · split
            · simp
            · split <;> simp
  · simp

theorem processLine_nil_or_singleton (line : Str) :
    processLine line = [] ∨ ∃ v, processLine line = [v] := by
  have h := processLine_length_le line
  rcases hp : processLine line with _ | ⟨v, rest⟩
  · exact Or.inl rfl
  · rw [hp] at h
    cases rest with
    | nil => exact Or.inr ⟨v, rfl⟩
    | cons w ws =>
      simp only [List.length_cons] at h
      omega

theorem processLinesLoop_eq_flatMap (lines : List Str) :
    processLinesLoop lines = lines.flatMap processLine := by
  induction lines with
  | nil => rfl
  | cons l ls ih => simp [processLinesLoop, ih]

/-! ### Claim theorems -/

/-- Concrete SSE line whose `delta.content` field is present but the empty
string. -/
def c1EmptyContentLine : Str :=
  "data: \x7b\"choices\":[\x7b\"delta\":\x7b\"content\":\"\"\x7d\x7d]\x7d".toList

/-- C1 counterexample: the claim says a present-but-empty delta field
produces no callback invocation, but on this line — whose `content` field
is present and empty — `sendMessage` invokes `onProgress` once, with the
empty string (the code only skips `undefined` and `null`, not `""`). -/
theorem c1_empty_delta_counterexample :
    processLine c1EmptyContentLine = [Json.str []] ∧ processLine c1EmptyContentLine ≠ [] :=
  ⟨rfl, fun h => List.noConfusion (show ([Json.str ([] : Str)] : List Json) = [] from h)⟩

/-- C1 (amended): for every complete line, at most one callback occurs, and
exactly one callback with value `v` occurs iff the line starts with
`data: `, its remainder is not `[DONE]`, the remainder parses as JSON with
the expected choices/delta shape, and the delta `content` field is present
and not `null` (an empty string does trigger a callback); lines are
processed in arrival order, and a line producing no callback — malformed,
`[DONE]`, or otherwise — never terminates iteration. -/
theorem c1_callback_iff (line : Str) (v : Json) (lines : List Str) :
    (processLine line = [] ∨ ∃ w, processLine line = [w]) ∧
    (processLine line = [v] ↔ EmitsDelta line v) ∧
    processLinesLoop lines = lines.flatMap processLine ∧
    (processLine line = [] → processLinesLoop (line :: lines) = processLinesLoop lines) :=
  ⟨processLine_nil_or_singleton line, processLine_singleton_iff line v,
    processLinesLoop_eq_flatMap lines,
    fun h => by simp [processLinesLoop, h]⟩

/-- A `data: [DONE]` line. -/
def c1DoneLine : Str := "data: [DONE]".toList

/-- C1 witness: the skip-and-continue conjunct applied to the concrete
`[DONE]` line followed by a content line. -/
theorem c1_callback_iff_witness :
    processLinesLoop [c1DoneLine, c1EmptyContentLine] = processLinesLoop [c1EmptyContentLine] :=
  (c1_callback_iff c1DoneLine Json.null [c1EmptyContentLine]).2.2.2 rfl

/-- C2: for every sequence of fed deltas and reveal ticks, the revealed
text is a prefix of the accumulated text (so `revealedLength` never
exceeds the accumulated length), the concatenation of the emitted reveal
chunks in emission order equals the revealed text, and once the backlog is
fully drained that concatenation equals the accumulated text exactly. -/
theorem c2_reveal_prefix_and_lossless (ops : List TurnOp) :
    ((runOps initialRevealState ops).1.disp <+: (runOps initialRevealState ops).1.cur) ∧
    (runOps initialRevealState ops).1.disp.length ≤ (runOps initialRevealState ops).1.cur.length ∧
    (runOps initialRevealState ops).2.flatten = (runOps initialRevealState ops).1.disp ∧
    ((runOps initialRevealState ops).1.disp.length = (runOps initialRevealState ops).1.cur.length →
      (runOps initialRevealState ops).2.flatten = (runOps initialRevealState ops).1.cur) := by
  obtain ⟨h1, h2⟩ := runOps_invariant ops initialRevealState ⟨[], rfl⟩
  have h2' : (runOps initialRevealState ops).2.flatten = (runOps initialRevealState ops).1.disp := by
    simpa [initialRevealState] using h2
  exact ⟨h1, h1.length_le, h2', fun hl => by rw [h2', h1.eq_of_length hl]⟩

/-- A concrete turn that feeds `"ab"` and drains it with one tick. -/
def c2DrainOps : List TurnOp := [TurnOp.feed ("ab".toList), TurnOp.tick]

/-- C2 witness: the drained-backlog conjunct at a concrete fully-drained
turn. -/
theorem c2_reveal_witness :
    (runOps initialRevealState c2DrainOps).2.flatten
      = (runOps initialRevealState c2DrainOps).1.cur :=
  (c2_reveal_prefix_and_lossless c2DrainOps).2.2.2 (by decide)

/-- C3: when all three attempts fail with non-timeout errors, `sendMessage`
makes exactly 3 fetch attempts with backoff waits of exactly 1000ms and
2000ms and throws the `ExhaustedRetries` message wrapping the last error;
an attempt classified as timeout (`AbortError`) is surfaced immediately:
no further attempt and no backoff wait follow it. -/
theorem c3_retry_and_timeout (outcomes : Nat → AttemptOutcome) :
    (∀ m0 m1 m2,
      outcomes 0 = AttemptOutcome.failMsg m0 → outcomes 1 = AttemptOutcome.failMsg m1 →
      outcomes 2 = AttemptOutcome.failMsg m2 →
      runSend outcomes = ⟨.threw (exhaustedMsg m2), 3, [1000, 2000]⟩) ∧
    (∀ k, k < 3 → (∀ i, i < k → ∃ m, outcomes i = AttemptOutcome.failMsg m) →
      outcomes k = AttemptOutcome.abortTimeout →
      runSend outcomes = ⟨.threw timeoutMsg, k + 1, (List.range k).map backoffWait⟩) := by
  constructor
  · intro m0 m1 m2 h0 h1 h2
    rw [runSend]
    norm_num [sendLoop, maxRetries, h0, h1, h2, backoffWait]
  · intro k hk hfail htime
    interval_cases k
    · rw [runSend]
      norm_num [sendLoop, maxRetries, htime]
    · obtain ⟨m0, h0⟩ := hfail 0 (by norm_num)
      rw [runSend]
      norm_num [sendLoop, maxRetries, h0, htime, backoffWait, List.range_succ]
    · obtain ⟨m0, h0⟩ := hfail 0 (by norm_num)
      obtain ⟨m1, h1⟩ := hfail 1 (by norm_num)
      rw [runSend]
      norm_num [sendLoop, maxRetries, h0, h1, htime, backoffWait, List.range_succ]

/-- C3 witness: both conjuncts at concrete outcome sequences (all attempts
failing, and an immediate timeout). -/
theorem c3_retry_witness :
    runSend (fun _ => AttemptOutcome.failMsg ("x".toList))
      = ⟨.threw (exhaustedMsg ("x".toList)), 3, [1000, 2000]⟩ ∧
    runSend (fun _ => AttemptOutcome.abortTimeout) = ⟨.threw timeoutMsg, 1, []⟩ :=
  ⟨(c3_retry_and_timeout _).1 _ _ _ rfl rfl rfl,
   (c3_retry_and_timeout _).2 0 (by norm_num) (fun i hi => absurd hi (by omega)) rfl⟩

/-- First network chunk of the split `Hello` record. -/
def c4Chunk1 : Str := "data: \x7b\"choices\":[\x7b\"delta\":\x7b\"content\":\"He".toList

/-- Second network chunk of the split `Hello` record. -/
def c4Chunk2 : Str := "llo\"\x7d\x7d]\x7d\n".toList

/-- C4: for every partition of the body into network chunks, the rolling
buffer processes exactly the complete (newline-terminated) lines of the
concatenated body — a line is processed only once fully received and the
trailing fragment is retained — so the emitted deltas depend only on the
concatenation; in particular the `Hello` record split across two chunks
produces exactly one `onProgress("Hello")` call. -/
theorem c4_rolling_buffer (chunks : List Str) :
    streamDeltas chunks = processLinesLoop ((splitNl chunks.flatten).dropLast) ∧
    streamDeltas chunks = streamDeltas [chunks.flatten] ∧
    streamDeltas [c4Chunk1, c4Chunk2] = [Json.str ("Hello".toList)] :=
  ⟨streamDeltas_eq chunks, streamDeltas_rechunk chunks, rfl⟩

/-- Error body with a top-level provider message. -/
def c5ErrorBody : Str := "\x7b\"error\":\x7b\"message\":\"boom\"\x7d\x7d".toList

/-- Error body with a nested raw-provider-metadata message. -/
def c5NestedBody : Str :=
  "\x7b\"error\":\x7b\"metadata\":\x7b\"raw\":\"\x7b\\\"error\\\":\x7b\\\"message\\\":\\\"inner\\\"\x7d\x7d\"\x7d\x7d\x7d".toList

/-- C5 code-bug evaluation: the non-ok branch does extract the
provider-supplied message (nested raw metadata first, then the top-level
error message), but it throws that message inside its own
`try { ... } catch`, so the throw is caught and only logged: the error
actually surfaced for a 429 with a parseable provider message is the bare
status message, which does not contain the provider text, and any other
status falls through to the generic message. -/
theorem c5_provider_message_swallowed :
    extractedErrorMsg c5ErrorBody = some ("OpenRouter API 错误: boom".toList) ∧
    extractedErrorMsg c5NestedBody = some ("服务提供商错误: inner".toList) ∧
    httpErrorThrowMsg 429 ("Too Many Requests".toList) c5ErrorBody = msg429 ∧
    ¬ ("boom".toList <:+: msg429) ∧
    httpErrorThrowMsg 400 ("Bad Request".toList) c5ErrorBody
      = genericHttpMsg 400 ("Bad Request".toList) c5ErrorBody :=
  ⟨rfl, rfl, rfl, by decide, rfl⟩

/-- The accumulated text of the C6 scenario. -/
def c6Text : Str := "Hi! How are you?".toList

/-- C6 counterexample: with `"Hi! How are you?"` accumulated and nothing
revealed, the first reveal chunk is the whole short word `"Hi"` (Latin runs
of length ≤ 4 are revealed whole), not `"H"` as the claim states. -/
theorem c6_first_chunk_counterexample :
    revealChunk ⟨c6Text, []⟩ = "Hi".toList ∧ revealChunk ⟨c6Text, []⟩ ≠ "H".toList := by
  exact ⟨by decide, by decide⟩

/-- C6 (amended): the reveal sequence for `"Hi! How are you?"` is `"Hi"`,
then `"!"` alone (punctuation isolated), then `" "`; the punctuation pause
is 0 before `"!"` is revealed and 250ms once the revealed text ends with
`"!"`, so the delay computed for the chunk following `"!"` is elevated by
the sentence-final punctuation pause. -/
theorem c6_schedule_amended :
    revealChunk ⟨c6Text, []⟩ = "Hi".toList ∧
    revealChunk (revealStep ⟨c6Text, []⟩) = "!".toList ∧
    (revealStep (revealStep ⟨c6Text, []⟩)).disp = "Hi!".toList ∧
    revealChunk (revealStep (revealStep ⟨c6Text, []⟩)) = " ".toList ∧
    punctuationDelay ("Hi!".toList) = 250 ∧
    punctuationDelay ("Hi".toList) = 0 ∧
    punctuationDelay ([] : Str) = 0 ∧
    (∀ r : ℚ, revealDelay (revealStep (revealStep ⟨c6Text, []⟩)) r
      = calculateTypingDelay c6Text.length 3 r + 250) := by
  refine ⟨by decide, by decide, by decide, by decide, by decide, by decide, by decide,
    fun r => ?_⟩
  rw [revealDelay]
  rw [show (revealStep (revealStep ⟨c6Text, []⟩)).disp = "Hi!".toList from by decide]
  rw [show (revealStep (revealStep ⟨c6Text, []⟩)).cur = c6Text from rfl]
  norm_num [show punctuationDelay ("Hi!".toList) = 250 from by decide,
    show paragraphDelay ("Hi!".toList) = 0 from by decide,
    show ("Hi!".toList).length = 3 from by decide,
    show punctuationDelay ['H', 'i', '!'] = 250 from by decide,
    show paragraphDelay ['H', 'i', '!'] = 0 from by decide]

/-- C7: a credential that is empty after trimming whitespace makes
`sendMessage` throw the invalid-credential message immediately, with zero
fetch calls and no backoff wait, for every message list and every attempt
behaviour. -/
theorem c7_invalid_credential (messages : List Message) (apiKey : Str)
    (outcomes : Nat → AttemptOutcome) (h : jsTrim apiKey = []) :
    sendMessageModel messages apiKey outcomes = ⟨.threw invalidKeyMsg, 0, []⟩ := by
  rw [sendMessageModel, if_pos h]

/-- C7 witness: the whitespace-only credential `"  "`. -/
theorem c7_invalid_credential_witness :
    sendMessageModel [] ("  ".toList) (fun _ => AttemptOutcome.success)
      = ⟨.threw invalidKeyMsg, 0, []⟩ :=
  c7_invalid_credential [] ("  ".toList) (fun _ => AttemptOutcome.success) (by decide)

/-- C8: for every conversation the issued request is a POST whose body
carries the supplied turns preceded by the fixed system preamble, has
`stream: true`, and has the model, temperature, max_tokens, top_p,
frequency_penalty and presence_penalty fields present; the headers include
the bearer credential, the event-stream accept header, and the
referer/title identification fields. -/
theorem c8_request_shape (messages : List Message) (apiKey origin : Str) :
    (buildRequest messages apiKey origin).method = "POST".toList ∧
    getProp (buildRequest messages apiKey origin).body ("messages".toList)
      = some (Json.arr (systemPreamble :: messages.map messageJson)) ∧
    getProp (buildRequest messages apiKey origin).body ("stream".toList)
      = some (Json.bool true) ∧
    (getProp (buildRequest messages apiKey origin).body ("model".toList)).isSome = true ∧
    (getProp (buildRequest messages apiKey origin).body ("temperature".toList)).isSome = true ∧
    (getProp (buildRequest messages apiKey origin).body ("max_tokens".toList)).isSome = true ∧
    (getProp (buildRequest messages apiKey origin).body ("top_p".toList)).isSome = true ∧
    (getProp (buildRequest messages apiKey origin).body
      ("frequency_penalty".toList)).isSome = true ∧
    (getProp (buildRequest messages apiKey origin).body
      ("presence_penalty".toList)).isSome = true ∧
    ("Authorization".toList, "Bearer ".toList ++ apiKey)
      ∈ (buildRequest messages apiKey origin).headers ∧
    ("Accept".toList, "text/event-stream".toList)
      ∈ (buildRequest messages apiKey origin).headers ∧
    ("HTTP-Referer".toList, origin) ∈ (buildRequest messages apiKey origin).headers ∧
    ("X-Title".toList, "AI-ChatBot".toList) ∈ (buildRequest messages apiKey origin).headers := by
  refine ⟨rfl, rfl, rfl, rfl, rfl, rfl, rfl, rfl, rfl, ?_, ?_, ?_, ?_⟩ <;>
    simp [buildRequest]

/-- C9 counterexample: at total length exactly 100 the code's
`lengthFactor` is 1.0 and not the 0.95 the claim's `100–500` band
assigns. -/
theorem c9_length_factor_counterexample :
    lengthFactor 100 = 1 ∧ lengthFactor 100 ≠ 95 / 100 := by
  norm_num [lengthFactor]

/-- C9 (amended): the bands are left-exclusive — `lengthFactor` is 1.0 up
to and including 100 characters, 0.95 above 100 up to 500, 0.9 above 500
up to 1000, and 0.85 above 1000. -/
theorem c9_length_factor_bands (n : Nat) :
    (n ≤ 100 → lengthFactor n = 1) ∧
    (100 < n → n ≤ 500 → lengthFactor n = 95 / 100) ∧
    (500 < n → n ≤ 1000 → lengthFactor n = 9 / 10) ∧
    (1000 < n → lengthFactor n = 85 / 100) := by
  unfold lengthFactor
  refine ⟨fun h => ?_, fun h1 h2 => ?_, fun h1 h2 => ?_, fun h => ?_⟩
  · rw [if_neg (by omega), if_neg (by omega), if_neg (by omega)]
  · rw [if_neg (by omega), if_neg (by omega), if_pos (by omega)]
  · rw [if_neg (by omega), if_pos (by omega)]
  · rw [if_pos (by omega)]

/-- C9 witness: one concrete length in each band. -/
theorem c9_length_factor_witness :
    lengthFactor 50 = 1 ∧ lengthFactor 200 = 95 / 100 ∧ lengthFactor 700 = 9 / 10 ∧
    lengthFactor 2000 = 85 / 100 :=
  ⟨(c9_length_factor_bands 50).1 (by norm_num),
   (c9_length_factor_bands 200).2.1 (by norm_num) (by norm_num),
   (c9_length_factor_bands 700).2.2.1 (by norm_num) (by norm_num),
   (c9_length_factor_bands 2000).2.2.2 (by norm_num)⟩

/-- A complete `data: ` record not followed by a newline. -/
def c10Line : Str := "data: \x7b\"choices\":[\x7b\"delta\":\x7b\"content\":\"Hi\"\x7d\x7d]\x7d".toList

/-- C10: a trailing chunk suffix without a newline — in particular a
complete `data: ` record whose line was never newline-terminated — is
silently discarded when the stream ends: it changes nothing in the emitted
deltas and raises no error, while the same record with a terminating
newline produces its callback. -/
theorem c10_trailing_fragment_discarded :
    (∀ (chunks : List Str) (s : Str), '\n' ∉ s →
      streamDeltas (chunks ++ [s]) = streamDeltas chunks) ∧
    streamDeltas [c10Line] = [] ∧
    streamDeltas [c10Line ++ ['\n']] = [Json.str ("Hi".toList)] :=
  ⟨streamDeltas_drop_trailing, rfl, rfl⟩

/-- C10 witness: the discard conjunct applied to a concrete trailing
record. -/
theorem c10_trailing_fragment_witness :
    streamDeltas [("data: x\n".toList : Str), "data: y".toList]
      = streamDeltas [("data: x\n".toList : Str)] := by
  have h := c10_trailing_fragment_discarded.1 ["data: x\n".toList] ("data: y".toList) (by decide)
  simpa using h
